import Mathlib

/-!
Shallow embedding of the request pipeline of `app/app_incremental.py`
(whisper-jax demo app): the `inference` call to the remote engine, the
batch dispatcher `forward`, and the two request handlers
`transcribe_audio` and `transcribe_chunked_audio`, together with the
semantics of `multiprocessing.Pool.map` (results stored at the index of
their originating task, read back in index order, regardless of the
order in which tasks complete).

External collaborators (file system, ffmpeg decoding, base64, the remote
engine, the Whisper pre/post processor) are parameters of the embedding,
collected in an `Env` record.  Python exceptions (KeyError on a missing
dict key, AttributeError) are modelled with `Except String`.  Observable
side effects of a handler call are recorded in a trace of `Effect`s.
-/

namespace WhisperApp

/-- Segment list carried in the `chunks` field of responses:
text together with a (start, end) pair, opaque to this pipeline. -/
abbrev Timestamps := List (String × Nat × Nat)

/-- A numeric array: its shape and flat data.  Stands for the numpy
arrays the app passes around. -/
structure NdArray where
  shape : List Nat
  data : List Int
deriving DecidableEq, Repr

/-- The dynamic value stored under `input_features` of a batch dict:
either still the numpy array produced by preprocessing, or the base64
string `forward` overwrites it with. -/
inductive FeatVal
  | arr (a : NdArray)
  | enc (s : String)
deriving DecidableEq, Repr

/-- A batch dict from `processor.preprocess_batch`: the stacked
`input_features` plus the remaining keys (stride metadata etc.),
abstracted as an opaque string. -/
structure Batch where
  input_features : FeatVal
  meta : String
deriving DecidableEq, Repr

/-- The `tokens` entry of an engine response: the raw JSON list, or the
numpy array `np.asarray` turns it into. -/
inductive TokVal
  | raw (l : List Int)
  | arr (a : NdArray)
deriving DecidableEq, Repr

/-- Response dict of the `generate_from_features` endpoint: `tokens`
plus the remaining keys, abstracted as an opaque string. -/
structure Outputs where
  tokens : TokVal
  meta : String
deriving DecidableEq, Repr

/-- `np.asarray` on the tokens entry: a raw list becomes a
one-dimensional array, an array is left unchanged. -/
def asarray : TokVal → TokVal
  | .raw l => .arr ⟨[l.length], l⟩
  | .arr a => .arr a

/-- The `inputs` entry of the `/generate/` payload: either the dict
`\x7barray: <base64 samples>, sampling_rate: <sr>\x7d` built by
`transcribe_audio`, or a plain YouTube URL string. -/
inductive InfInputs
  | audioDict (array : String) (sampling_rate : Nat)
  | url (s : String)
deriving DecidableEq, Repr

/-- JSON payload of the `/generate/` endpoint.  `language = none` means
the key is absent from the dict. -/
structure Payload where
  inputs : InfInputs
  task : Option String
  return_timestamps : Bool
  language : Option String
deriving DecidableEq, Repr

/-- Response body of the `/generate/` endpoint as a partial dict:
`none` means the key is absent. -/
structure RespData where
  text : Option String
  detail : Option String
  chunks : Option Timestamps
deriving DecidableEq, Repr

/-- JSON payload of the `generate_from_features` endpoint, as built by
`forward`. -/
structure FwdPayload where
  batch : Batch
  task : Option String
  return_timestamps : Bool
  feature_shape : List Nat
deriving DecidableEq, Repr

/-- Result of `processor.postprocess`: a dict with a `text` key and an
optional `chunks` key (read with `.get`, hence no KeyError). -/
structure PostProcessed where
  text : String
  chunks : Option Timestamps
deriving DecidableEq, Repr

/-- A Gradio handler in the app returns either a bare string (the
missing-input error path) or a (text, timestamps) pair. -/
inductive GrResult
  | single (s : String)
  | pair (text : String) (timestamps : Option Timestamps)
deriving DecidableEq, Repr

/-- Observable side effects of a handler call, in program order. -/
inductive Effect
  | fileRead (path : String)
  | ffmpegDecode
  | httpPost (url : String)
  | poolCreate (n : Nat)
deriving DecidableEq, Repr

/-- `API_URL` module constant. -/
def API_URL : String := "https://whisper-jax.ngrok.io/generate/"

/-- URL of the chunked endpoint, inlined in `chunked_query`. -/
def CHUNKED_URL : String := "https://whisper-jax.ngrok.io/generate_from_features"

/-- `CHUNK_LENGTH_S` module constant. -/
def CHUNK_LENGTH_S : Nat := 30

/-- `BATCH_SIZE` module constant. -/
def BATCH_SIZE : Nat := 16

/-- `NUM_PROC` module constant. -/
def NUM_PROC : Nat := 4

/-- Python truthiness of the `language` argument: `None` and the empty
string are falsy, any other string is truthy. -/
def pyTruthy : Option String → Bool
  | none => false
  | some s => !s.isEmpty

/-- Dict subscript access `data[k]`: KeyError when the key is absent. -/
def getKey (k : String) : Option α → Except String α
  | some v => .ok v
  | none => .error ("KeyError: " ++ k)

/-- The payload dict built at the top of `inference`: `inputs`, `task`
and `return_timestamps` are always set; `language` is added only when
truthy. -/
def mkPayload (inputs : InfInputs) (language : Option String)
    (task : Option String) (return_timestamps : Bool) : Payload :=
  { inputs := inputs, task := task, return_timestamps := return_timestamps,
    language := if pyTruthy language then language else none }

/-- `inference(inputs, language, task, return_timestamps)`: posts the
payload, reads `text` on status 200 and `detail` otherwise, then reads
`chunks` when timestamps were requested.  The engine (the combination
of `requests.post` and `response.json()` inside `query`) is a parameter
mapping the payload to a response body and a status code. -/
def inference (engine : Payload → RespData × Nat) (inputs : InfInputs)
    (language : Option String) (task : Option String)
    (return_timestamps : Bool) : Except String (String × Option Timestamps) :=
  let payload := mkPayload inputs language task return_timestamps
  let res := engine payload
  let data := res.1
  let status_code := res.2
  (if status_code = 200 then getKey "text" data.text
   else getKey "detail" data.detail).bind fun text =>
    (if return_timestamps then (getKey "chunks" data.chunks).map some
     else .ok none).bind fun timestamps =>
      .ok (text, timestamps)

/-- `forward(batch, task, return_timestamps)`: reads the feature shape,
overwrites `batch["input_features"]` with the base64 encoding of its
bytes, posts the payload to the chunked endpoint, converts the returned
tokens with `np.asarray`, and returns the outputs.  The returned triple
also exposes the batch dict as it stands after the call (mutated in
place in the source) and the list of engine calls made.  Calling it on a
batch whose features were already replaced by a string would raise
(a string has no `.shape`), modelled with `Except`. -/
def forward (engine : FwdPayload → Outputs) (b64 : List Int → String)
    (batch : Batch) (task : Option String) (return_timestamps : Bool) :
    Except String (Outputs × Batch × List FwdPayload) :=
  match batch.input_features with
  | .enc _ => .error "AttributeError: str object has no attribute shape"
  | .arr a =>
    let feature_shape := a.shape
    let batch' : Batch := { batch with input_features := .enc (b64 a.data) }
    let payload : FwdPayload :=
      { batch := batch', task := task, return_timestamps := return_timestamps,
        feature_shape := feature_shape }
    let outputs := engine payload
    let outputs' : Outputs := { outputs with tokens := asarray outputs.tokens }
    .ok (outputs', batch', [payload])

/-- Executes the scheduled tasks of a `Pool.map` call: `sched` is the
order in which workers complete the tasks; completing task `i` stores
`f xs[i]` in slot `i` of the result buffer. -/
def runSched (f : α → β) (xs : List α) (sched : List Nat)
    (slots : List (Option β)) : List (Option β) :=
  match sched with
  | [] => slots
  | i :: rest =>
      runSched f xs rest
        (match xs[i]? with
         | some x => slots.set i (some (f x))
         | none => slots)

/-- Semantics of `pool.map(f, xs)`: tasks complete in the arbitrary
order `sched`, each result is stored at the index of its originating
task, and the buffer is read back in index order. -/
def poolMapSched (f : α → β) (xs : List α) (sched : List Nat) : List β :=
  (runSched f xs sched (List.replicate xs.length none)).filterMap id

/-- External collaborators of the two handlers, passed as parameters:
the file system, ffmpeg decoding, the feature extractor sampling rate,
base64 encoding, the two engine endpoints, and the Whisper pre/post
processor. -/
structure Env where
  readFile : String → List Int
  ffmpeg_read : List Int → Nat → List Int
  sampling_rate : Nat
  b64 : List Int → String
  engine : Payload → RespData × Nat
  chunked_engine : FwdPayload → Outputs
  preprocess_batch : List Int → Nat → Nat → Nat → List Batch
  postprocess : List Outputs → Bool → PostProcessed

/-- The warning prefixed to the transcript when both a microphone
recording and an uploaded file are provided.  (The source message uses
a contracted form of "You have"; normalized here.) -/
def WARN_MSG : String :=
  "WARNING: You have uploaded an audio file and used the microphone. " ++
  "The recorded file from the microphone will be used and the uploaded audio will be discarded.\n"

/-- The error string returned when neither audio source is provided. -/
def ERROR_MSG : String :=
  "ERROR: You have to either use the microphone or upload an audio file"

/-- `inputs = microphone if microphone is not None else file_upload`. -/
def sourcePath (microphone file_upload : Option String) : String :=
  match microphone with
  | some m => m
  | none => file_upload.getD ""

/-- `transcribe_audio(microphone, file_upload, task, return_timestamps)`:
input-source resolution, file read, ffmpeg decode, then one `inference`
call; returns the handler result together with the trace of side
effects performed. -/
def transcribe_audio (env : Env) (microphone file_upload : Option String)
    (task : Option String) (return_timestamps : Bool) :
    Except String GrResult × List Effect :=
  let warn_output := if microphone.isSome && file_upload.isSome then WARN_MSG else ""
  if microphone.isNone && file_upload.isNone then
    (.ok (.single ERROR_MSG), [])
  else
    let path := sourcePath microphone file_upload
    let bytes := env.readFile path
    let samples := env.ffmpeg_read bytes env.sampling_rate
    let inputs : InfInputs := .audioDict (env.b64 samples) env.sampling_rate
    let trace : List Effect := [.fileRead path, .ffmpegDecode, .httpPost API_URL]
    match inference env.engine inputs none task return_timestamps with
    | .ok (text, timestamps) => (.ok (.pair (warn_output ++ text) timestamps), trace)
    | .error e => (.error e, trace)

/-- The `pool.map(partial(forward, task=task, return_timestamps=...),
dataloader)` step of the chunked handler, under completion order
`sched`. -/
def dispatchBatches (env : Env) (task : Option String)
    (return_timestamps : Bool) (sched : List Nat) (dataloader : List Batch) :
    List (Except String (Outputs × Batch × List FwdPayload)) :=
  poolMapSched
    (fun batch => forward env.chunked_engine env.b64 batch task return_timestamps)
    dataloader sched

/-- `Pool.map` re-raises a worker exception in the parent: collecting
the per-batch results fails as soon as one batch failed, and otherwise
yields the outputs in list order (the mutated batch copy and the call
log stay behind in the worker). -/
def collectOutputs :
    List (Except String (Outputs × Batch × List FwdPayload)) →
    Except String (List Outputs)
  | [] => .ok []
  | .error e :: _ => .error e
  | .ok r :: rest => (collectOutputs rest).map (r.1 :: ·)

/-- `transcribe_chunked_audio(microphone, file_upload, task,
return_timestamps)`: input-source resolution, file read, ffmpeg decode,
preprocessing into a dataloader with the module constants
`CHUNK_LENGTH_S` and `BATCH_SIZE`, creation of a fresh `Pool(NUM_PROC)`,
parallel dispatch, postprocessing.  `sched` is the completion order of
the pool workers. -/
def transcribe_chunked_audio (env : Env) (sched : List Nat)
    (microphone file_upload : Option String)
    (task : Option String) (return_timestamps : Bool) :
    Except String GrResult × List Effect :=
  let warn_output := if microphone.isSome && file_upload.isSome then WARN_MSG else ""
  if microphone.isNone && file_upload.isNone then
    (.ok (.single ERROR_MSG), [])
  else
    let path := sourcePath microphone file_upload
    let bytes := env.readFile path
    let samples := env.ffmpeg_read bytes env.sampling_rate
    let dataloader := env.preprocess_batch samples env.sampling_rate CHUNK_LENGTH_S BATCH_SIZE
    let trace : List Effect := [.fileRead path, .ffmpegDecode, .poolCreate NUM_PROC]
    match collectOutputs (dispatchBatches env task return_timestamps sched dataloader) with
    | .error e => (.error e, trace)
    | .ok model_outputs =>
      let post_processed := env.postprocess model_outputs return_timestamps
      let timestamps := post_processed.chunks
      (.ok (.pair (warn_output ++ post_processed.text) timestamps), trace)

/-- Modelled from the spec: the request-level chunked interface
`transcribe_chunked(audio_bytes, task, return_timestamps,
chunk_length_s, batch_size)` of section 6, in which the chunk length
and batch size are caller-supplied parameters forwarded to
preprocessing.  Identical to `transcribe_chunked_audio` except for
those two parameters; used only to compare the code against the spec
interface. -/
def transcribe_chunked_spec (env : Env) (sched : List Nat)
    (microphone file_upload : Option String)
    (task : Option String) (return_timestamps : Bool)
    (chunk_length_s batch_size : Nat) :
    Except String GrResult × List Effect :=
  let warn_output := if microphone.isSome && file_upload.isSome then WARN_MSG else ""
  if microphone.isNone && file_upload.isNone then
    (.ok (.single ERROR_MSG), [])
  else
    let path := sourcePath microphone file_upload
    let bytes := env.readFile path
    let samples := env.ffmpeg_read bytes env.sampling_rate
    let dataloader := env.preprocess_batch samples env.sampling_rate chunk_length_s batch_size
    let trace : List Effect := [.fileRead path, .ffmpegDecode, .poolCreate NUM_PROC]
    match collectOutputs (dispatchBatches env task return_timestamps sched dataloader) with
    | .error e => (.error e, trace)
    | .ok model_outputs =>
      let post_processed := env.postprocess model_outputs return_timestamps
      let timestamps := post_processed.chunks
      (.ok (.pair (warn_output ++ post_processed.text) timestamps), trace)

/-- Lifts a text transformation over a handler result, acting on the
text component of either shape of result. -/
def mapResText (g : String → String) : Except String GrResult → Except String GrResult
  | .ok (.single s) => .ok (.single (g s))
  | .ok (.pair t ts) => .ok (.pair (g t) ts)
  | .error e => .error e

/-- The payload `forward` builds for a batch whose features are the
array `a`: the batch with its features replaced by their base64
encoding, the task, the timestamps flag, and the feature shape. -/
def fwdPayloadOf (b64 : List Int → String) (batch : Batch) (a : NdArray)
    (task : Option String) (return_timestamps : Bool) : FwdPayload :=
  { batch := { batch with input_features := .enc (b64 a.data) },
    task := task, return_timestamps := return_timestamps,
    feature_shape := a.shape }

/-- An engine that answers every `/generate/` request with an HTTP 503
whose body carries only a `detail` field — the shape of a FastAPI error
response. -/
def engineErr : Payload → RespData × Nat :=
  fun _ => ({ text := none, detail := some "Service temporarily unavailable", chunks := none }, 503)

/-- A concrete, fully computable environment used to evaluate the
pipeline at specific inputs: the chunked engine echoes the feature
shape it received into the output metadata, preprocessing produces one
batch whose feature shape records the chunk length it was given, and
postprocessing concatenates the output metadata. -/
def env0 : Env where
  readFile := fun _ => [1, 2]
  ffmpeg_read := fun bytes _ => bytes
  sampling_rate := 16000
  b64 := fun l => toString l
  engine := fun _ => ({ text := some "hello world", detail := none, chunks := some [] }, 200)
  chunked_engine := fun p => { tokens := .raw [7], meta := toString p.feature_shape }
  preprocess_batch := fun _ _ chunk_length _ => [⟨.arr ⟨[chunk_length], [3]⟩, ""⟩]
  postprocess := fun outs _ => { text := String.intercalate ";" (outs.map (·.meta)), chunks := none }

/-- A concrete batch with array-valued features. -/
def b0 : Batch := { input_features := .arr ⟨[1, 2], [5, 6]⟩, meta := "stride0" }

/-- A second concrete batch, distinguishable from `b0`. -/
def b1 : Batch := { input_features := .arr ⟨[1, 2], [7, 8]⟩, meta := "stride1" }

/-- A third concrete batch, distinguishable from the others. -/
def b2 : Batch := { input_features := .arr ⟨[1, 2], [9, 10]⟩, meta := "stride2" }

end WhisperApp

deriving instance DecidableEq for Except

namespace WhisperApp

/-- `runSched` never changes the length of the result buffer. -/
lemma runSched_length (f : α → β) (xs : List α) (sched : List Nat)
    (slots : List (Option β)) :
    (runSched f xs sched slots).length = slots.length := by
  induction sched generalizing slots with
  | nil => rfl
  | cons i rest ih =>
    cases h : xs[i]? with
    | none => simp [runSched, h, ih]
    | some x => simp [runSched, h, ih]

/-- Slot contents after running a schedule: a slot whose task appears in
the schedule holds that task's result; any other slot is untouched. -/
lemma runSched_getElem (f : α → β) (xs : List α) (sched : List Nat) :
    ∀ (slots : List (Option β)), slots.length = xs.length →
      ∀ j, (hj : j < xs.length) →
        (runSched f xs sched slots)[j]? =
          if j ∈ sched then some (some (f (xs.get ⟨j, hj⟩))) else slots[j]? := by
  induction sched with
  | nil =>
    intro slots _ j hj
    simp [runSched]
  | cons i rest ih =>
    intro slots hlen j hj
    cases hx : xs[i]? with
    | none =>
      have hi : xs.length ≤ i := by
        simpa using List.getElem?_eq_none_iff.mp hx
      have hji : j ≠ i := fun h => absurd hj (by omega)
      have := ih slots hlen j hj
      simp only [runSched, hx]
      rw [this]
      simp [List.mem_cons, hji]
    | some x =>
      have hi : i < xs.length := by
        by_contra hcon
        rw [List.getElem?_eq_none (by omega)] at hx
        exact Option.noConfusion hx
      have hslots' : (slots.set i (some (f x))).length = xs.length := by
        simpa using hlen
      have hrec := ih (slots.set i (some (f x))) hslots' j hj
      simp only [runSched, hx]
      rw [hrec]
      by_cases hjr : j ∈ rest
      · simp [hjr, List.mem_cons]
      · by_cases hji : j = i
        · subst hji
          have hxj : x = xs.get ⟨j, hj⟩ := by
            have := List.getElem?_eq_getElem hj
            rw [this] at hx
            exact (Option.some.inj hx).symm
          simp [hjr, List.mem_cons, hxj, List.getElem?_set_self (by omega : j < slots.length)]
        · simp [hjr, hji, List.mem_cons, List.getElem?_set_ne (fun h => hji h.symm)]

/-- Turning a buffer of present results back into a plain list. -/
lemma filterMap_id_map_some (l : List β) :
    (l.map (fun x => some x)).filterMap id = l := by
  induction l with
  | nil => rfl
  | cons x xs ih => simp [ih]

/-- `poolMapSched` under any completion order that is a permutation of
the task indices produces exactly `xs.map f`: completion order never
affects the order of collected results. -/
lemma poolMapSched_perm (f : α → β) (xs : List α) (sched : List Nat)
    (h : sched.Perm (List.range xs.length)) :
    poolMapSched f xs sched = xs.map f := by
  have hmem : ∀ j, j ∈ sched ↔ j < xs.length := by
    intro j
    rw [h.mem_iff, List.mem_range]
  have hbuf : runSched f xs sched (List.replicate xs.length none) =
      (xs.map f).map (fun x => some x) := by
    apply List.ext_getElem?
    intro j
    by_cases hj : j < xs.length
    · rw [runSched_getElem f xs sched _ (by simp) j hj]
      simp [hmem j, hj, List.getElem?_eq_getElem hj]
    · rw [List.getElem?_eq_none (l := runSched f xs sched (List.replicate xs.length none))
           (by rw [runSched_length]; simp; omega)]
      rw [List.getElem?_eq_none (by simp; omega)]
  rw [poolMapSched, hbuf, filterMap_id_map_some]

/-- Claim C1 (counterexample): `inference` does not always return the
error detail as a plain string on a non-200 response when
return_timestamps is true — on a 503 response whose body has only a
`detail` field, the unconditional `data["chunks"]` lookup raises a
KeyError instead of returning the detail text. -/
theorem claim_C1_counterexample :
    inference engineErr (.url "https://youtu.be/x") none none true =
      .error "KeyError: chunks" := by
  rfl

/-- Claim C1 (amended): on a non-200 response carrying a `detail`
field, `inference` returns the detail string as the text result without
raising when return_timestamps is false; when return_timestamps is
true it additionally reads the `chunks` field of the same error
response, returning the detail text with those chunks if present and
raising a KeyError if absent. -/
theorem claim_C1_error_detail (engine : Payload → RespData × Nat)
    (inputs : InfInputs) (language task : Option String)
    (return_timestamps : Bool) (d : String)
    (hstatus : (engine (mkPayload inputs language task return_timestamps)).2 ≠ 200)
    (hdetail : (engine (mkPayload inputs language task return_timestamps)).1.detail = some d) :
    inference engine inputs language task return_timestamps =
      (if return_timestamps then
        (match (engine (mkPayload inputs language task return_timestamps)).1.chunks with
         | some ts => .ok (d, some ts)
         | none => .error "KeyError: chunks")
       else .ok (d, none)) := by
  simp only [inference, if_neg hstatus, hdetail, getKey]
  cases return_timestamps with
  | false => rfl
  | true =>
    cases (engine (mkPayload inputs language task true)).1.chunks with
    | none => rfl
    | some ts => rfl

/-- Witness for C1: at the concrete 503 engine with
return_timestamps = false, the hypotheses hold and `inference` returns
the detail string. -/
theorem claim_C1_witness :
    (engineErr (mkPayload (.url "u") none none false)).2 ≠ 200 ∧
    inference engineErr (.url "u") none none false =
      .ok ("Service temporarily unavailable", none) :=
  ⟨by decide, by
    have h := claim_C1_error_detail engineErr (.url "u") none none false
      "Service temporarily unavailable" (by decide) (by rfl)
    simpa using h⟩

/-- Claim C9: the `/generate/` payload contains a `language` key iff
the language argument is truthy; a language of None and a language
equal to the empty string both yield a payload without the key, and
those two payloads are equal, hence indistinguishable to the engine. -/
theorem claim_C9_language_key (inputs : InfInputs) (task : Option String)
    (return_timestamps : Bool) :
    (mkPayload inputs none task return_timestamps).language = none ∧
    (mkPayload inputs (some "") task return_timestamps).language = none ∧
    (∀ s : String, s ≠ "" →
      (mkPayload inputs (some s) task return_timestamps).language = some s) ∧
    mkPayload inputs (some "") task return_timestamps =
      mkPayload inputs none task return_timestamps := by
  refine ⟨rfl, rfl, ?_, rfl⟩
  intro s hs
  have : s.isEmpty = false := by
    rcases h : s.isEmpty with _ | _
    · rfl
    · exact absurd (String.isEmpty_iff s |>.mp h) hs
  simp [mkPayload, pyTruthy, this]

/-- Witness for C9: at a concrete nonempty language, the payload holds
that language under its key. -/
theorem claim_C9_witness :
    ("en" : String) ≠ "" ∧
    (mkPayload (.url "u") (some "en") none false).language = some "en" :=
  ⟨by decide, (claim_C9_language_key (.url "u") none false).2.2.1 "en" (by decide)⟩

/-- Claim C10: when neither a microphone recording nor an uploaded file
is provided, both handlers return the error string with an empty effect
trace: no file read, no ffmpeg decode, no HTTP call, no pool creation
happens on the invalid-input path. -/
theorem claim_C10_no_effects_on_missing_input (env : Env) (sched : List Nat)
    (task : Option String) (return_timestamps : Bool) :
    transcribe_audio env none none task return_timestamps =
      (.ok (.single ERROR_MSG), []) ∧
    transcribe_chunked_audio env sched none none task return_timestamps =
      (.ok (.single ERROR_MSG), []) :=
  ⟨rfl, rfl⟩

/-- Claim C6 (code evaluated at the failing input): with no audio
source provided, both handlers return the bare string
`ERROR: You have to either use the microphone or upload an audio file`
— a single value, not a (text, timestamps) pair, although the Gradio
interfaces they are bound to declare two output components and every
other path returns a pair. -/
theorem claim_C6_bare_string_on_missing_input :
    transcribe_audio env0 none none none false = (.ok (.single ERROR_MSG), []) ∧
    transcribe_chunked_audio env0 [0] none none none false =
      (.ok (.single ERROR_MSG), []) :=
  ⟨rfl, rfl⟩

/-- Claim C2 (counterexample): a single call of the chunked handler
does spawn its own pool — the effect trace of one concrete request
contains a `Pool(NUM_PROC)` creation, so the pool is not a process-wide
resource shared across requests. -/
theorem claim_C2_counterexample :
    Effect.poolCreate NUM_PROC ∈
      (transcribe_chunked_audio env0 [0] (some "a.wav") none none false).2 := by
  decide

/-- Claim C2 (amended): every call of the chunked handler that has an
audio source creates exactly one fresh pool of `NUM_PROC` workers of
its own — the trace of each such call is precisely one file read, one
decode, and one pool creation; the pool is per-request, not
process-wide. -/
theorem claim_C2_pool_per_request (env : Env) (sched : List Nat)
    (microphone file_upload : Option String) (task : Option String)
    (return_timestamps : Bool)
    (h : microphone.isSome ∨ file_upload.isSome) :
    (transcribe_chunked_audio env sched microphone file_upload task return_timestamps).2 =
      [.fileRead (sourcePath microphone file_upload), .ffmpegDecode,
       .poolCreate NUM_PROC] := by
  have hcond : (microphone.isNone && file_upload.isNone) = false := by
    rcases h with h | h <;> cases microphone <;> cases file_upload <;> simp_all
  simp only [transcribe_chunked_audio, hcond, Bool.false_eq_true, if_false]
  cases collectOutputs (dispatchBatches env task return_timestamps sched
      (env.preprocess_batch
        (env.ffmpeg_read (env.readFile (sourcePath microphone file_upload)) env.sampling_rate)
        env.sampling_rate CHUNK_LENGTH_S BATCH_SIZE)) <;> rfl

/-- Witness for C2 (amended): at a concrete microphone-only request the
hypothesis holds and the trace is exactly one pool creation after the
read and decode. -/
theorem claim_C2_witness :
    ((some "a.wav" : Option String).isSome ∨ (none : Option String).isSome) ∧
    (transcribe_chunked_audio env0 [1, 0] (some "a.wav") none none false).2 =
      [.fileRead (sourcePath (some "a.wav") none), .ffmpegDecode,
       .poolCreate NUM_PROC] :=
  ⟨Or.inl rfl,
   claim_C2_pool_per_request env0 [1, 0] (some "a.wav") none none false (Or.inl rfl)⟩

/-- Claim C3: for any completion order of the concurrently dispatched
batch calls that is a permutation of the batch indices, the list of
per-batch results handed to postprocessing equals the in-order map of
the dispatcher over the dataloader — results are consumed strictly in
original batch order. -/
theorem claim_C3_dispatch_order (env : Env) (task : Option String)
    (return_timestamps : Bool) (dataloader : List Batch) (sched : List Nat)
    (h : sched.Perm (List.range dataloader.length)) :
    dispatchBatches env task return_timestamps sched dataloader =
      dataloader.map
        (fun batch => forward env.chunked_engine env.b64 batch task return_timestamps) :=
  poolMapSched_perm _ _ _ h

/-- Witness for C3: with three concrete batches completing in the order
2, 0, 1, the collected results still follow the original batch order. -/
theorem claim_C3_witness :
    ([2, 0, 1] : List Nat).Perm (List.range ([b0, b1, b2] : List Batch).length) ∧
    dispatchBatches env0 none false [2, 0, 1] [b0, b1, b2] =
      [b0, b1, b2].map (fun batch => forward env0.chunked_engine env0.b64 batch none false) :=
  ⟨by decide, claim_C3_dispatch_order env0 none false [b0, b1, b2] [2, 0, 1] (by decide)⟩

/-- Claim C4 (counterexample): `forward` does not leave the batch
passed in unchanged — after the call on a concrete batch, its
`input_features` field holds the base64 string instead of the original
array. -/
theorem claim_C4_counterexample :
    (forward env0.chunked_engine env0.b64 b0 none false).toOption.map
        (fun r => r.2.1) ≠ some b0 := by
  decide

/-- Claim C4 (amended): beyond the single outbound call, the only
effect of `forward` on the batch is overwriting its `input_features`
with the base64 encoding of the feature bytes; all other fields are
unchanged and exactly one engine call is made. -/
theorem claim_C4_forward_effect (engine : FwdPayload → Outputs)
    (b64 : List Int → String) (batch : Batch) (a : NdArray)
    (task : Option String) (return_timestamps : Bool)
    (h : batch.input_features = .arr a) :
    forward engine b64 batch task return_timestamps =
      .ok ({ engine (fwdPayloadOf b64 batch a task return_timestamps) with
               tokens := asarray (engine (fwdPayloadOf b64 batch a task return_timestamps)).tokens },
           { batch with input_features := .enc (b64 a.data) },
           [fwdPayloadOf b64 batch a task return_timestamps]) := by
  obtain ⟨feats, m⟩ := batch
  simp only at h
  subst h
  rfl

/-- Witness for C4 (amended): evaluated at the concrete batch `b0`. -/
theorem claim_C4_witness :
    b0.input_features = FeatVal.arr ⟨[1, 2], [5, 6]⟩ ∧
    forward env0.chunked_engine env0.b64 b0 none false =
      .ok ({ env0.chunked_engine (fwdPayloadOf env0.b64 b0 ⟨[1, 2], [5, 6]⟩ none false) with
               tokens := asarray (env0.chunked_engine
                 (fwdPayloadOf env0.b64 b0 ⟨[1, 2], [5, 6]⟩ none false)).tokens },
           { b0 with input_features := .enc (env0.b64 [5, 6]) },
           [fwdPayloadOf env0.b64 b0 ⟨[1, 2], [5, 6]⟩ none false]) :=
  ⟨rfl, claim_C4_forward_effect env0.chunked_engine env0.b64 b0 ⟨[1, 2], [5, 6]⟩ none false rfl⟩

/-- Claim C8: on a batch whose features are still the stacked array,
`forward` makes exactly one engine call, and that single call carries
the batch feature data (base64-encoded, with its shape passed
alongside), the task parameter, and the return_timestamps flag. -/
theorem claim_C8_engine_called_once (engine : FwdPayload → Outputs)
    (b64 : List Int → String) (batch : Batch) (a : NdArray)
    (task : Option String) (return_timestamps : Bool)
    (h : batch.input_features = .arr a) :
    (forward engine b64 batch task return_timestamps).toOption.map (fun r => r.2.2) =
      some [fwdPayloadOf b64 batch a task return_timestamps] ∧
    (fwdPayloadOf b64 batch a task return_timestamps).task = task ∧
    (fwdPayloadOf b64 batch a task return_timestamps).return_timestamps = return_timestamps ∧
    (fwdPayloadOf b64 batch a task return_timestamps).batch.input_features =
      .enc (b64 a.data) ∧
    (fwdPayloadOf b64 batch a task return_timestamps).feature_shape = a.shape := by
  obtain ⟨feats, m⟩ := batch
  simp only at h
  subst h
  exact ⟨rfl, rfl, rfl, rfl, rfl⟩

/-- Witness for C8: evaluated at the concrete batch `b1`. -/
theorem claim_C8_witness :
    b1.input_features = FeatVal.arr ⟨[1, 2], [7, 8]⟩ ∧
    (forward env0.chunked_engine env0.b64 b1 (some "translate") true).toOption.map
        (fun r => r.2.2) =
      some [fwdPayloadOf env0.b64 b1 ⟨[1, 2], [7, 8]⟩ (some "translate") true] :=
  ⟨rfl, (claim_C8_engine_called_once env0.chunked_engine env0.b64 b1 ⟨[1, 2], [7, 8]⟩
    (some "translate") true rfl).1⟩

/-- A both-sources call of the plain handler equals the microphone-only
call with the warning prefixed to the text (result component). -/
lemma transcribe_audio_pref_text (env : Env) (task : Option String)
    (rt : Bool) (m f : String) :
    (transcribe_audio env (some m) (some f) task rt).1 =
      mapResText (fun t => WARN_MSG ++ t) (transcribe_audio env (some m) none task rt).1 := by
  cases hinf : inference env.engine
      (.audioDict (env.b64 (env.ffmpeg_read (env.readFile m) env.sampling_rate))
        env.sampling_rate) none task rt with
  | error e => simp [transcribe_audio, sourcePath, hinf, mapResText]
  | ok val =>
    obtain ⟨text, ts⟩ := val
    simp [transcribe_audio, sourcePath, hinf, mapResText]

/-- A both-sources call of the plain handler performs the same effects
as the microphone-only call (trace component): the same file is read. -/
lemma transcribe_audio_pref_trace (env : Env) (task : Option String)
    (rt : Bool) (m f : String) :
    (transcribe_audio env (some m) (some f) task rt).2 =
      (transcribe_audio env (some m) none task rt).2 := by
  cases hinf : inference env.engine
      (.audioDict (env.b64 (env.ffmpeg_read (env.readFile m) env.sampling_rate))
        env.sampling_rate) none task rt with
  | error e => simp [transcribe_audio, sourcePath, hinf]
  | ok val =>
    obtain ⟨text, ts⟩ := val
    simp [transcribe_audio, sourcePath, hinf]

/-- A both-sources call of the chunked handler equals the
microphone-only call with the warning prefixed (result component). -/
lemma transcribe_chunked_pref_text (env : Env) (sched : List Nat)
    (task : Option String) (rt : Bool) (m f : String) :
    (transcribe_chunked_audio env sched (some m) (some f) task rt).1 =
      mapResText (fun t => WARN_MSG ++ t)
        (transcribe_chunked_audio env sched (some m) none task rt).1 := by
  cases hout : collectOutputs (dispatchBatches env task rt sched
      (env.preprocess_batch (env.ffmpeg_read (env.readFile m) env.sampling_rate)
        env.sampling_rate CHUNK_LENGTH_S BATCH_SIZE)) with
  | error e => simp [transcribe_chunked_audio, sourcePath, hout, mapResText]
  | ok outs => simp [transcribe_chunked_audio, sourcePath, hout, mapResText]

/-- A both-sources call of the chunked handler performs the same
effects as the microphone-only call (trace component). -/
lemma transcribe_chunked_pref_trace (env : Env) (sched : List Nat)
    (task : Option String) (rt : Bool) (m f : String) :
    (transcribe_chunked_audio env sched (some m) (some f) task rt).2 =
      (transcribe_chunked_audio env sched (some m) none task rt).2 := by
  cases hout : collectOutputs (dispatchBatches env task rt sched
      (env.preprocess_batch (env.ffmpeg_read (env.readFile m) env.sampling_rate)
        env.sampling_rate CHUNK_LENGTH_S BATCH_SIZE)) with
  | error e => simp [transcribe_chunked_audio, sourcePath, hout]
  | ok outs => simp [transcribe_chunked_audio, sourcePath, hout]

/-- Claim C5: when both a microphone recording and an uploaded file are
provided, each handler behaves exactly like the microphone-only call
with the warning string prefixed to the transcript (the upload is
discarded and nothing fails that would not fail anyway); when neither
is provided, each handler reports the error string and performs no
transcription work. -/
theorem claim_C5_source_preference (env : Env) (sched : List Nat)
    (task : Option String) (return_timestamps : Bool) (m f : String) :
    ((transcribe_audio env (some m) (some f) task return_timestamps).1 =
        mapResText (fun t => WARN_MSG ++ t)
          (transcribe_audio env (some m) none task return_timestamps).1 ∧
      (transcribe_audio env (some m) (some f) task return_timestamps).2 =
        (transcribe_audio env (some m) none task return_timestamps).2) ∧
    ((transcribe_chunked_audio env sched (some m) (some f) task return_timestamps).1 =
        mapResText (fun t => WARN_MSG ++ t)
          (transcribe_chunked_audio env sched (some m) none task return_timestamps).1 ∧
      (transcribe_chunked_audio env sched (some m) (some f) task return_timestamps).2 =
        (transcribe_chunked_audio env sched (some m) none task return_timestamps).2) ∧
    transcribe_audio env none none task return_timestamps =
      (.ok (.single ERROR_MSG), []) ∧
    transcribe_chunked_audio env sched none none task return_timestamps =
      (.ok (.single ERROR_MSG), []) :=
  ⟨⟨transcribe_audio_pref_text env task return_timestamps m f,
    transcribe_audio_pref_trace env task return_timestamps m f⟩,
   ⟨transcribe_chunked_pref_text env sched task return_timestamps m f,
    transcribe_chunked_pref_trace env sched task return_timestamps m f⟩,
   rfl, rfl⟩

/-- Claim C7 (counterexample): the chunked handler is not the spec
interface with caller-supplied chunk length and batch size — at a
concrete request, the code passes the module constant 30 to
preprocessing, so its result differs from the spec interface called
with chunk_length_s = 10. -/
theorem claim_C7_counterexample :
    transcribe_chunked_audio env0 [0] (some "a.wav") none none false ≠
      transcribe_chunked_spec env0 [0] (some "a.wav") none none false 10 16 := by
  decide

/-- Claim C7 (amended): the chunked handler takes no chunk-length or
batch-size parameters; every call behaves as the spec interface fixed
at the module constants, with CHUNK_LENGTH_S = 30 and BATCH_SIZE = 16. -/
theorem claim_C7_fixed_constants (env : Env) (sched : List Nat)
    (microphone file_upload : Option String) (task : Option String)
    (return_timestamps : Bool) :
    transcribe_chunked_audio env sched microphone file_upload task return_timestamps =
      transcribe_chunked_spec env sched microphone file_upload task return_timestamps
        CHUNK_LENGTH_S BATCH_SIZE ∧
    CHUNK_LENGTH_S = 30 ∧ BATCH_SIZE = 16 :=
  ⟨rfl, rfl, rfl⟩

end WhisperApp
